import Mathlib

/-!
# Verification of the Thinkers Shelf cart logic (`src/cart.js`)

Shallow embedding of the cart state engine: the path resolver, the persisted
cart store (localStorage content modelled as an optional string, JSON modelled
by an executable printer/parser over a `JSValue` type with integer numerals,
since the repository persists only integer currency amounts and quantities),
and the mutation API.  JavaScript strings are modelled as lists of characters.
-/

/-- JavaScript strings are modelled as lists of characters. -/
abbrev JSStr := List Char

/-- The literal `"../"` tested by `startsWith("../")` and the storage
normalization regex in `cart.js`. -/
def parentSeg : JSStr := "../".data

/-- The literal `"http"` tested by `rawPath.startsWith("http")` (line 16). -/
def httpSeg : JSStr := "http".data

/-- The literal `"//"` tested by `rawPath.startsWith("//")` (line 16). -/
def slashSlash : JSStr := "//".data

/-- JavaScript `String.prototype.startsWith(p)` on our string model. -/
def jsStartsWith (s p : JSStr) : Bool := p.isPrefixOf s

/-- JavaScript `String.prototype.replace(pat, repl)` with a plain-string
pattern: only the first occurrence of `pat` is replaced (line 25 of
`cart.js` relies on this). -/
def replaceFirst (s pat repl : JSStr) : JSStr :=
  if pat.isPrefixOf s then repl ++ s.drop pat.length
  else
    match s with
    | [] => []
    | c :: cs => c :: replaceFirst cs pat repl
termination_by s.length
decreasing_by simp_wf

/-- `resolveImagePath` (lines 13-28).  The `window.location` test
`pathname.includes("/details/")` is abstracted into the boolean
`isDetailsPage` argument; everything else is translated verbatim. -/
def resolveImagePath (rawPath : JSStr) (isDetailsPage : Bool) : JSStr :=
  if rawPath = [] then []
  else if jsStartsWith rawPath httpSeg || jsStartsWith rawPath slashSlash then rawPath
  else
    let hasParentTraversal := jsStartsWith rawPath parentSeg
    if isDetailsPage && !hasParentTraversal then parentSeg ++ rawPath
    else if !isDetailsPage && hasParentTraversal then replaceFirst rawPath parentSeg []
    else rawPath

/-- `normalizePathForStorage` (lines 31-33): `path.replace(/^\.\.\//, "")`,
i.e. strip a single leading `"../"` if present (the regex is anchored and
`replace` rewrites at most one match). -/
def normalizePathForStorage (path : JSStr) : JSStr :=
  if jsStartsWith path parentSeg then path.drop parentSeg.length else path

/-- One line item of the persisted cart (spec section 3). -/
structure CartItem where
  id : JSStr
  title : JSStr
  price : Int
  image : JSStr
  quantity : Int
deriving DecidableEq, Repr

/-- The persisted cart: an ordered list of items. -/
abbrev Cart := List CartItem

/-- The product descriptor handed to `addToCart` (built at line 226-231 from
the button's dataset; `price` is already parsed to a number there). -/
structure Product where
  id : JSStr
  title : JSStr
  price : Int
  image : JSStr
deriving DecidableEq, Repr

/-- In `addToCart`, `cart.find(x => x.id === product.id)` returns a live
reference and `existing.quantity += 1` mutates that array element in place:
the first element whose id matches gets its quantity bumped. -/
def bumpFirstQuantity : Cart → JSStr → Cart
  | [], _ => []
  | x :: xs, pid =>
      if x.id == pid then { x with quantity := x.quantity + 1 } :: xs
      else x :: bumpFirstQuantity xs pid

/-- `addToCart` (lines 66-93), the pure state transition: the surrounding
`getCart`/`saveCart` calls and the button visual feedback are the storage
round-trip and presentation.  A fresh item is pushed with the spread
`{...product, image: normalizePathForStorage(product.image), quantity: 1}`,
whose resulting property order is id, title, price, image, quantity. -/
def addToCart (cart : Cart) (product : Product) : Cart :=
  match cart.find? (fun x => x.id == product.id) with
  | some _ => bumpFirstQuantity cart product.id
  | none =>
      cart ++ [{ id := product.id, title := product.title, price := product.price,
                 image := normalizePathForStorage product.image, quantity := 1 }]

/-- `removeFromCart` (lines 95-100): `getCart().filter(x => x.id !== id)`. -/
def removeFromCart (cart : Cart) (id : JSStr) : Cart :=
  cart.filter (fun x => x.id != id)

/-- In `updateQuantity`, `cart.find` again yields a live reference that is
mutated in place: the first matching element's quantity is updated to
`quantity + delta`, clamped below by 1. -/
def setFirstQuantity : Cart → JSStr → Int → Cart
  | [], _, _ => []
  | x :: xs, pid, delta =>
      if x.id == pid then
        { x with quantity := if x.quantity + delta < 1 then 1 else x.quantity + delta } :: xs
      else x :: setFirstQuantity xs pid delta

/-- `updateQuantity` (lines 102-112): a missing id returns early without
touching the cart; otherwise the found item's quantity is adjusted and
clamped to a minimum of 1. -/
def updateQuantity (cart : Cart) (id : JSStr) (delta : Int) : Cart :=
  match cart.find? (fun x => x.id == id) with
  | none => cart
  | some _ => setFirstQuantity cart id delta

/-- `clearCart` (lines 213-216) replaces the stored cart with `[]`. -/
def clearCart : Cart := []

/-- The badge count computed by `updateCartCount` (line 52):
`cart.reduce((sum, item) => sum + item.quantity, 0)`. -/
def cartCount (cart : Cart) : Int :=
  cart.foldl (fun sum item => sum + item.quantity) 0

/-- The grand total accumulated by `renderCart` (lines 126-137): an empty
cart renders a total of 0 (line 128); otherwise each row contributes
`lineTotal = item.price * item.quantity` (line 136) into `total`
(line 137), in list order. -/
def renderCartTotal (cart : Cart) : Int :=
  if cart = [] then 0
  else cart.foldl (fun total item => total + item.price * item.quantity) 0

/-! ## The persisted JSON representation

`saveCart` stores `JSON.stringify(cart)` under the fixed key and `getCart`
reads it back through `JSON.parse` inside a try/catch.  The JSON data model
is embedded as `JSValue`; numerals are modelled as integers because the
repository persists only integer currency amounts and quantities. -/

/-- A parsed JSON value as produced by `JSON.parse` (integer numerals). -/
inductive JSValue where
  | null : JSValue
  | bool : Bool → JSValue
  | num : Int → JSValue
  | str : JSStr → JSValue
  | arr : List JSValue → JSValue
  | obj : List (JSStr × JSValue) → JSValue
deriving Repr

/-- JSON string escaping as performed by `JSON.stringify`: quote, backslash
and the five short control escapes, `\u00XX` for the remaining control
characters, every other character literal. -/
def escapeChar (c : Char) : JSStr :=
  if c = '"' then ['\\', '"']
  else if c = '\\' then ['\\', '\\']
  else if c = '\x08' then ['\\', 'b']
  else if c = '\t' then ['\\', 't']
  else if c = '\n' then ['\\', 'n']
  else if c = '\x0c' then ['\\', 'f']
  else if c = '\r' then ['\\', 'r']
  else if c.toNat < 32 then
    ['\\', 'u', '0', '0', Nat.digitChar (c.toNat / 16), Nat.digitChar (c.toNat % 16)]
  else [c]

/-- Escape a whole string, character by character. -/
def escapeString : JSStr → JSStr
  | [] => []
  | c :: rest => escapeChar c ++ escapeString rest

/-- A JSON string literal: `"` escaped-body `"`. -/
def strLit (s : JSStr) : JSStr := '"' :: escapeString s ++ ['"']

/-- Decimal digits of a natural number, most significant first. -/
def natToString (n : Nat) : JSStr :=
  if n < 10 then [Nat.digitChar n]
  else natToString (n / 10) ++ [Nat.digitChar (n % 10)]
termination_by n
decreasing_by exact Nat.div_lt_self (by omega) (by omega)

/-- Decimal numeral of an integer, as emitted by `JSON.stringify` for the
integer numbers this program stores. -/
def intToString (n : Int) : JSStr :=
  if n < 0 then '-' :: natToString n.natAbs else natToString n.toNat

/-- The five property names of a persisted cart item. -/
def idKey : JSStr := "id".data

/-- Property name `title`. -/
def titleKey : JSStr := "title".data

/-- Property name `price`. -/
def priceKey : JSStr := "price".data

/-- Property name `image`. -/
def imageKey : JSStr := "image".data

/-- Property name `quantity`. -/
def quantityKey : JSStr := "quantity".data

/-- `JSON.stringify` of one cart item.  The property order is id, title,
price, image, quantity: the object is built by `{...product, image: ...,
quantity: 1}` (lines 73-77) from a descriptor created with keys in that
order (lines 226-231), and the spread keeps `image` in its original slot. -/
def stringifyItem (it : CartItem) : JSStr :=
  '{' :: strLit idKey ++ ':' :: strLit it.id ++ ',' ::
  strLit titleKey ++ ':' :: strLit it.title ++ ',' ::
  strLit priceKey ++ ':' :: intToString it.price ++ ',' ::
  strLit imageKey ++ ':' :: strLit it.image ++ ',' ::
  strLit quantityKey ++ ':' :: intToString it.quantity ++ ['}']

/-- `Array.prototype.join(",")`, used by `JSON.stringify` between array
elements. -/
def joinComma : List JSStr → JSStr
  | [] => []
  | [s] => s
  | s :: rest => s ++ ',' :: joinComma rest

/-- `JSON.stringify` of a whole cart (an array of items, no whitespace). -/
def stringifyCart (cart : Cart) : JSStr :=
  '[' :: joinComma (cart.map stringifyItem) ++ [']']

/-- `saveCart` (lines 45-48): the persisted key now holds the serialized
cart (the badge refresh is a rendering side effect). -/
def saveCart (cart : Cart) : Option JSStr := some (stringifyCart cart)

/-! ### `JSON.parse`, modelled as an executable recursive-descent parser.

Failure (`none`) models the `SyntaxError` exception thrown by `JSON.parse`;
the fuel argument bounds nesting and is amply provided by `jsonParse`. -/

/-- JSON whitespace. -/
def isJsonWs (c : Char) : Bool := c = ' ' || c = '\t' || c = '\n' || c = '\r'

/-- Skip leading JSON whitespace. -/
def skipWs : JSStr → JSStr
  | [] => []
  | c :: rest => if isJsonWs c then skipWs rest else c :: rest

/-- Value of one hexadecimal digit. -/
def hexVal (c : Char) : Option Nat :=
  if '0' ≤ c ∧ c ≤ '9' then some (c.toNat - 48)
  else if 'a' ≤ c ∧ c ≤ 'f' then some (c.toNat - 97 + 10)
  else if 'A' ≤ c ∧ c ≤ 'F' then some (c.toNat - 65 + 10)
  else none

/-- Prepend a character to the string being accumulated by
`parseStringBody`. -/
def consStr (c : Char) (r : Option (JSStr × JSStr)) : Option (JSStr × JSStr) :=
  match r with
  | some (s, rest) => some (c :: s, rest)
  | none => none

/-- Parse the body of a JSON string literal (the opening quote already
consumed), handling the escape sequences accepted by `JSON.parse` and
rejecting raw control characters. -/
def parseStringBody : JSStr → Option (JSStr × JSStr)
  | [] => none
  | c :: rest =>
    if c = '"' then some ([], rest)
    else if c = '\\' then
      match rest with
      | [] => none
      | e :: rest2 =>
        if e = '"' then consStr '"' (parseStringBody rest2)
        else if e = '\\' then consStr '\\' (parseStringBody rest2)
        else if e = '/' then consStr '/' (parseStringBody rest2)
        else if e = 'b' then consStr '\x08' (parseStringBody rest2)
        else if e = 'f' then consStr '\x0c' (parseStringBody rest2)
        else if e = 'n' then consStr '\n' (parseStringBody rest2)
        else if e = 'r' then consStr '\r' (parseStringBody rest2)
        else if e = 't' then consStr '\t' (parseStringBody rest2)
        else if e = 'u' then
          match rest2 with
          | h1 :: h2 :: h3 :: h4 :: rest3 =>
            match hexVal h1, hexVal h2, hexVal h3, hexVal h4 with
            | some a, some b, some c2, some d =>
                consStr (Char.ofNat (((a * 16 + b) * 16 + c2) * 16 + d)) (parseStringBody rest3)
            | _, _, _, _ => none
          | _ => none
        else none
    else if c.toNat < 32 then none
    else consStr c (parseStringBody rest)

/-- Consume a maximal run of decimal digits, folding them onto `acc`. -/
def parseDigitsAcc : JSStr → Nat → Nat × JSStr
  | [], acc => (acc, [])
  | c :: cs, acc =>
      if c.isDigit then parseDigitsAcc cs (acc * 10 + (c.toNat - 48))
      else (acc, c :: cs)

/-- Does the string begin with a decimal digit?  (Used to state where a
numeral parse stops.) -/
def headDigit : JSStr → Bool
  | [] => false
  | c :: _ => c.isDigit

/-- Parse a nonempty run of decimal digits. -/
def parseNat (s : JSStr) : Option (Nat × JSStr) :=
  match s with
  | [] => none
  | c :: _ => if c.isDigit then some (parseDigitsAcc s 0) else none

/-- Parse an (optionally negated) integer numeral. -/
def parseNumber (s : JSStr) : Option (Int × JSStr) :=
  match s with
  | [] => none
  | c :: rest =>
    if c = '-' then (fun p => (-(p.1 : Int), p.2)) <$> parseNat rest
    else (fun p => ((p.1 : Int), p.2)) <$> parseNat (c :: rest)

mutual

/-- Parse one JSON value (integer numerals). -/
def parseValue : Nat → JSStr → Option (JSValue × JSStr)
  | 0, _ => none
  | fuel + 1, s =>
    match skipWs s with
    | [] => none
    | c :: rest =>
      if c = '-' || c.isDigit then
        (fun p => (JSValue.num p.1, p.2)) <$> parseNumber (c :: rest)
      else if c = '"' then
        (fun p => (JSValue.str p.1, p.2)) <$> parseStringBody rest
      else if c = 'n' then
        match rest with
        | 'u' :: 'l' :: 'l' :: r => some (JSValue.null, r)
        | _ => none
      else if c = 't' then
        match rest with
        | 'r' :: 'u' :: 'e' :: r => some (JSValue.bool true, r)
        | _ => none
      else if c = 'f' then
        match rest with
        | 'a' :: 'l' :: 's' :: 'e' :: r => some (JSValue.bool false, r)
        | _ => none
      else if c = '[' then
        match skipWs rest with
        | [] => none
        | c2 :: r2 =>
          if c2 = ']' then some (JSValue.arr [], r2)
          else (fun p => (JSValue.arr p.1, p.2)) <$> parseElems fuel (c2 :: r2)
      else if c = '{' then
        match skipWs rest with
        | [] => none
        | c2 :: r2 =>
          if c2 = '}' then some (JSValue.obj [], r2)
          else (fun p => (JSValue.obj p.1, p.2)) <$> parseMembers fuel (c2 :: r2)
      else none

/-- Parse a nonempty comma-separated list of values up to the closing `]`. -/
def parseElems : Nat → JSStr → Option (List JSValue × JSStr)
  | 0, _ => none
  | fuel + 1, s =>
    match parseValue fuel s with
    | none => none
    | some (v, s1) =>
      match skipWs s1 with
      | [] => none
      | c :: r =>
        if c = ',' then
          match parseElems fuel r with
          | none => none
          | some (vs, s2) => some (v :: vs, s2)
        else if c = ']' then some ([v], r)
        else none

/-- Parse a nonempty comma-separated list of object members up to the
closing brace. -/
def parseMembers : Nat → JSStr → Option (List (JSStr × JSValue) × JSStr)
  | 0, _ => none
  | fuel + 1, s =>
    match skipWs s with
    | [] => none
    | c :: r =>
      if c = '"' then
        match parseStringBody r with
        | none => none
        | some (k, s1) =>
          match skipWs s1 with
          | [] => none
          | c2 :: s2 =>
            if c2 = ':' then
              match parseValue fuel s2 with
              | none => none
              | some (v, s3) =>
                match skipWs s3 with
                | [] => none
                | c3 :: s4 =>
                  if c3 = ',' then
                    match parseMembers fuel s4 with
                    | none => none
                    | some (ms, s5) => some ((k, v) :: ms, s5)
                  else if c3 = '}' then some ([(k, v)], s4)
                  else none
            else none
      else none

end

/-- `JSON.parse`: parse a value and require only trailing whitespace.  The
fuel `s.length + 1` suffices because every recursive level consumes at
least one character. -/
def jsonParse (s : JSStr) : Option JSValue :=
  match parseValue (s.length + 1) s with
  | none => none
  | some (v, rest) => if skipWs rest = [] then some v else none

/-- `getCart` (lines 35-43).  The stored key is modelled as `Option JSStr`
(`none` = key absent, in which case `localStorage.getItem` returns the
falsy `null`; the empty string is also falsy, line 38).  A `JSON.parse`
exception is caught and replaced by `[]` (lines 39-42); note that the raw
parsed value is returned without any shape validation. -/
def getCart (storage : Option JSStr) : JSValue :=
  match storage with
  | none => JSValue.arr []
  | some raw =>
    if raw = [] then JSValue.arr []
    else
      match jsonParse raw with
      | some v => v
      | none => JSValue.arr []

/-- The JSON value that `JSON.parse` recovers from a serialized item. -/
def itemToJSON (it : CartItem) : JSValue :=
  JSValue.obj [(idKey, JSValue.str it.id), (titleKey, JSValue.str it.title),
    (priceKey, JSValue.num it.price), (imageKey, JSValue.str it.image),
    (quantityKey, JSValue.num it.quantity)]

/-- The JSON value that `JSON.parse` recovers from a serialized cart. -/
def cartToJSON (cart : Cart) : JSValue :=
  JSValue.arr (cart.map itemToJSON)

/-- JavaScript property lookup on a parsed object: with duplicate keys the
last occurrence wins, as in `JSON.parse`. -/
def getField (fields : List (JSStr × JSValue)) (k : JSStr) : Option JSValue :=
  (fields.filter (fun kv => kv.1 == k)).getLast?.map (fun kv => kv.2)

/-- Read a JSON value as a string, as the rest of `cart.js` does with the
`id`, `title` and `image` properties. -/
def asStr : Option JSValue → Option JSStr
  | some (JSValue.str s) => some s
  | _ => none

/-- Read a JSON value as a number, as the rest of `cart.js` does with the
`price` and `quantity` properties. -/
def asNum : Option JSValue → Option Int
  | some (JSValue.num n) => some n
  | _ => none

/-- The typed view of one parsed item: the five properties the program
reads, with the types it expects. -/
def decodeItem (v : JSValue) : Option CartItem :=
  match v with
  | JSValue.obj fs =>
    match asStr (getField fs idKey), asStr (getField fs titleKey),
        asNum (getField fs priceKey), asStr (getField fs imageKey),
        asNum (getField fs quantityKey) with
    | some i, some t, some p, some im, some q =>
        some { id := i, title := t, price := p, image := im, quantity := q }
    | _, _, _, _, _ => none
  | _ => none

/-- The typed view of a parsed cart: an array of well-shaped items. -/
def decodeCart (v : JSValue) : Option Cart :=
  match v with
  | JSValue.arr vs => vs.mapM decodeItem
  | _ => none

/-! ## Helper lemmas -/

/-! ### String-literal and numeral round trips through the JSON model -/

theorem hexVal_digitChar : ∀ n < 16, hexVal (Nat.digitChar n) = some n := by decide

theorem digitChar_isDigit : ∀ n < 10, (Nat.digitChar n).isDigit = true := by decide

theorem digitChar_toNat : ∀ n < 10, (Nat.digitChar n).toNat - 48 = n := by decide

theorem not_jsonWs_of_digit (c : Char) (h : c.isDigit = true) : isJsonWs c = false := by
  cases hc : isJsonWs c with
  | false => rfl
  | true =>
    exfalso
    simp only [isJsonWs, Bool.or_eq_true, decide_eq_true_eq] at hc
    rcases hc with ((rfl | rfl) | rfl) | rfl <;> exact absurd h (by decide)

theorem ne_dash_of_digit (c : Char) (h : c.isDigit = true) : ¬(c = '-') := by
  rintro rfl
  exact absurd h (by decide)

theorem parseStringBody_escape (s rest : JSStr) :
    parseStringBody (escapeString s ++ '"' :: rest) = some (s, rest) := by
  induction s with
  | nil =>
    rw [escapeString, List.nil_append, parseStringBody.eq_def]
    simp +decide
  | cons c s ih =>
    rw [escapeString, List.append_assoc]
    by_cases h1 : c = '"'
    · subst h1
      rw [show escapeChar '"' = ['\\', '"'] from by decide]
      simp only [List.cons_append, List.nil_append]
      rw [parseStringBody.eq_def]
      simp +decide [ih, consStr]
    · by_cases h2 : c = '\\'
      · subst h2
        rw [show escapeChar '\\' = ['\\', '\\'] from by decide]
        simp only [List.cons_append, List.nil_append]
        rw [parseStringBody.eq_def]
        simp +decide [ih, consStr]
      · by_cases h3 : c = '\x08'
        · subst h3
          rw [show escapeChar '\x08' = ['\\', 'b'] from by decide]
          simp only [List.cons_append, List.nil_append]
          rw [parseStringBody.eq_def]
          simp +decide [ih, consStr]
        · by_cases h4 : c = '\t'
          · subst h4
            rw [show escapeChar '\t' = ['\\', 't'] from by decide]
            simp only [List.cons_append, List.nil_append]
            rw [parseStringBody.eq_def]
            simp +decide [ih, consStr]
          · by_cases h5 : c = '\n'
            · subst h5
              rw [show escapeChar '\n' = ['\\', 'n'] from by decide]
              simp only [List.cons_append, List.nil_append]
              rw [parseStringBody.eq_def]
              simp +decide [ih, consStr]
            · by_cases h6 : c = '\x0c'
              · subst h6
                rw [show escapeChar '\x0c' = ['\\', 'f'] from by decide]
                simp only [List.cons_append, List.nil_append]
                rw [parseStringBody.eq_def]
                simp +decide [ih, consStr]
              · by_cases h7 : c = '\r'
                · subst h7
                  rw [show escapeChar '\r' = ['\\', 'r'] from by decide]
                  simp only [List.cons_append, List.nil_append]
                  rw [parseStringBody.eq_def]
                  simp +decide [ih, consStr]
                · by_cases h8 : c.toNat < 32
                  · have e1 : escapeChar c = ['\\', 'u', '0', '0',
                        Nat.digitChar (c.toNat / 16), Nat.digitChar (c.toNat % 16)] := by
                      simp [escapeChar, h1, h2, h3, h4, h5, h6, h7, h8]
                    have hd1 : hexVal (Nat.digitChar (c.toNat / 16)) = some (c.toNat / 16) :=
                      hexVal_digitChar _ (by omega)
                    have hd2 : hexVal (Nat.digitChar (c.toNat % 16)) = some (c.toNat % 16) :=
                      hexVal_digitChar _ (by omega)
                    rw [e1]
                    simp only [List.cons_append, List.nil_append]
                    rw [parseStringBody.eq_def]
                    simp +decide [hd1, hd2, show hexVal '0' = some 0 from by decide,
                      ih, consStr]
                    rw [show c.toNat / 16 * 16 + c.toNat % 16 = c.toNat from by omega,
                      Char.ofNat_toNat]
                  · have e1 : escapeChar c = [c] := by
                      simp [escapeChar, h1, h2, h3, h4, h5, h6, h7, h8]
                    rw [e1]
                    simp only [List.cons_append, List.nil_append]
                    rw [parseStringBody.eq_def]
                    simp [h1, h2, h8, ih, consStr]

theorem parseDigitsAcc_stop (s : JSStr) (acc : Nat) (h : headDigit s = false) :
    parseDigitsAcc s acc = (acc, s) := by
  cases s with
  | nil => rfl
  | cons c cs => simp only [headDigit] at h; simp [parseDigitsAcc, h]

theorem natToString_ne_nil (n : Nat) : natToString n ≠ [] := by
  rw [natToString]
  split <;> simp

theorem natToString_all_digit (n : Nat) : ∀ c ∈ natToString n, c.isDigit = true := by
  induction n using Nat.strong_induction_on with
  | _ n ih =>
    rw [natToString]
    split
    case isTrue h => simpa using digitChar_isDigit n h
    case isFalse h =>
      intro c hc
      rcases List.mem_append.mp hc with hc | hc
      · exact ih (n / 10) (Nat.div_lt_self (by omega) (by omega)) c hc
      · have : c = Nat.digitChar (n % 10) := by simpa using hc
        subst this
        exact digitChar_isDigit (n % 10) (by omega)

theorem parseDigitsAcc_natToString (n : Nat) (rest : JSStr) (acc : Nat) :
    parseDigitsAcc (natToString n ++ rest) acc
      = parseDigitsAcc rest (acc * 10 ^ (natToString n).length + n) := by
  induction n using Nat.strong_induction_on generalizing rest acc with
  | _ n ih =>
    rw [natToString]
    split
    case isTrue h =>
      simp only [List.cons_append, List.nil_append, List.length_cons, List.length_nil]
      rw [parseDigitsAcc.eq_def]
      simp only [digitChar_isDigit n h, if_true, digitChar_toNat n h, pow_one]
      norm_num
    case isFalse h =>
      rw [List.append_assoc, ih (n / 10) (Nat.div_lt_self (by omega) (by omega))]
      simp only [List.singleton_append, List.length_append, List.length_cons,
        List.length_nil]
      rw [parseDigitsAcc.eq_def]
      simp only [digitChar_isDigit (n % 10) (by omega), if_true,
        digitChar_toNat (n % 10) (by omega)]
      have : (acc * 10 ^ (natToString (n / 10)).length + n / 10) * 10 + n % 10
          = acc * 10 ^ ((natToString (n / 10)).length + (0 + 1)) + n := by
        rw [Nat.zero_add, pow_succ]
        have := Nat.div_add_mod n 10
        ring_nf
        omega
      rw [this]

theorem parseNat_natToString (n : Nat) (rest : JSStr) (h : headDigit rest = false) :
    parseNat (natToString n ++ rest) = some (n, rest) := by
  obtain ⟨c, t, hct⟩ : ∃ c t, natToString n = c :: t := by
    cases hn : natToString n with
    | nil => exact absurd hn (natToString_ne_nil n)
    | cons c t => exact ⟨c, t, rfl⟩
  have hc : c.isDigit = true := natToString_all_digit n c (by rw [hct]; simp)
  rw [parseNat.eq_def]
  rw [hct, List.cons_append]
  simp only [hc, if_true]
  rw [← List.cons_append, ← hct, parseDigitsAcc_natToString, Nat.zero_mul, Nat.zero_add,
    parseDigitsAcc_stop rest n h]

theorem parseNumber_intToString (n : Int) (rest : JSStr) (h : headDigit rest = false) :
    parseNumber (intToString n ++ rest) = some (n, rest) := by
  rw [intToString]
  split
  case isTrue hn =>
    simp only [List.cons_append]
    rw [parseNumber.eq_def]
    have habs : -((n.natAbs : Int)) = n := by omega
    simp [if_pos rfl, parseNat_natToString n.natAbs rest h, habs]
    rw [abs_of_neg hn, neg_neg]
  case isFalse hn =>
    obtain ⟨c, t, hct⟩ : ∃ c t, natToString n.toNat = c :: t := by
      cases he : natToString n.toNat with
      | nil => exact absurd he (natToString_ne_nil n.toNat)
      | cons c t => exact ⟨c, t, rfl⟩
    have hc : c.isDigit = true := natToString_all_digit n.toNat c (by rw [hct]; simp)
    have htn : ((n.toNat : Int)) = n := by omega
    rw [hct, List.cons_append, parseNumber.eq_def]
    simp only [if_neg (ne_dash_of_digit c hc), ← List.cons_append, ← hct,
      parseNat_natToString n.toNat rest h, Option.map_eq_map, Option.map_some']
    simp [htn]

theorem parseValue_strLit (fuel : Nat) (s rest : JSStr) :
    parseValue (fuel + 1) (strLit s ++ rest) = some (JSValue.str s, rest) := by
  rw [strLit]
  simp only [List.cons_append, List.append_assoc, List.singleton_append]
  rw [parseValue.eq_def]
  simp +decide [skipWs, parseStringBody_escape s rest]

theorem parseValue_intLit (fuel : Nat) (n : Int) (rest : JSStr) (h : headDigit rest = false) :
    parseValue (fuel + 1) (intToString n ++ rest) = some (JSValue.num n, rest) := by
  obtain ⟨c, t, hct⟩ : ∃ c t, intToString n = c :: t := by
    rw [intToString]
    split
    · exact ⟨_, _, rfl⟩
    · cases he : natToString n.toNat with
      | nil => exact absurd he (natToString_ne_nil n.toNat)
      | cons c t => exact ⟨c, t, rfl⟩
  have hc : (decide (c = '-') || c.isDigit) = true := by
    rw [intToString] at hct
    split at hct
    · cases hct; simp
    · have : c.isDigit = true := natToString_all_digit n.toNat c (by rw [hct]; simp)
      simp [this]
  have hws : isJsonWs c = false := by
    rcases Bool.or_eq_true _ _ |>.mp hc with hd | hd
    · have : c = '-' := by simpa using hd
      subst this; decide
    · exact not_jsonWs_of_digit c hd
  rw [parseValue.eq_def, hct, List.cons_append]
  simp only [skipWs, hws, Bool.false_eq_true, if_false, hc, if_true]
  rw [← List.cons_append, ← hct, parseNumber_intToString n rest h]
  rfl

theorem parseValue_objStrKey (fuel : Nat) (k x : JSStr) :
    parseValue (fuel + 1) ('{' :: (strLit k ++ x))
      = (fun p => (JSValue.obj p.1, p.2)) <$> parseMembers fuel (strLit k ++ x) := by
  simp only [strLit, List.cons_append, List.append_assoc, List.singleton_append]
  rw [parseValue.eq_def]
  simp +decide [skipWs]

theorem parseMembers_step_comma (fuel : Nat) (k venc tail : JSStr) (v : JSValue)
    (ms : List (JSStr × JSValue)) (s5 : JSStr)
    (hv : parseValue fuel (venc ++ ',' :: tail) = some (v, ',' :: tail))
    (hms : parseMembers fuel tail = some (ms, s5)) :
    parseMembers (fuel + 1) (strLit k ++ ':' :: (venc ++ ',' :: tail))
      = some ((k, v) :: ms, s5) := by
  simp only [strLit, List.cons_append, List.append_assoc, List.singleton_append]
  rw [parseMembers.eq_def]
  simp +decide [skipWs, parseStringBody_escape, hv, hms]

theorem parseMembers_step_last (fuel : Nat) (k venc rest : JSStr) (v : JSValue)
    (hv : parseValue fuel (venc ++ '}' :: rest) = some (v, '}' :: rest)) :
    parseMembers (fuel + 1) (strLit k ++ ':' :: (venc ++ '}' :: rest))
      = some ([(k, v)], rest) := by
  simp only [strLit, List.cons_append, List.append_assoc, List.singleton_append]
  rw [parseMembers.eq_def]
  simp +decide [skipWs, parseStringBody_escape, hv]

theorem parseValue_item (it : CartItem) (fuel : Nat) (rest : JSStr) :
    parseValue (fuel + 7) (stringifyItem it ++ rest) = some (itemToJSON it, rest) := by
  have h5 : parseMembers (fuel + 2)
      (strLit quantityKey ++ ':' :: (intToString it.quantity ++ '}' :: rest))
      = some ([(quantityKey, JSValue.num it.quantity)], rest) :=
    parseMembers_step_last (fuel + 1) quantityKey (intToString it.quantity) rest
      (JSValue.num it.quantity)
      (parseValue_intLit fuel it.quantity ('}' :: rest) (by simp +decide [headDigit]))
  have h4 : parseMembers (fuel + 3)
      (strLit imageKey ++ ':' :: (strLit it.image ++ ',' ::
        (strLit quantityKey ++ ':' :: (intToString it.quantity ++ '}' :: rest))))
      = some ([(imageKey, JSValue.str it.image),
          (quantityKey, JSValue.num it.quantity)], rest) :=
    parseMembers_step_comma (fuel + 2) imageKey (strLit it.image) _
      (JSValue.str it.image) _ rest (parseValue_strLit (fuel + 1) it.image _) h5
  have h3 : parseMembers (fuel + 4)
      (strLit priceKey ++ ':' :: (intToString it.price ++ ',' ::
        (strLit imageKey ++ ':' :: (strLit it.image ++ ',' ::
          (strLit quantityKey ++ ':' :: (intToString it.quantity ++ '}' :: rest))))))
      = some ([(priceKey, JSValue.num it.price),
          (imageKey, JSValue.str it.image),
          (quantityKey, JSValue.num it.quantity)], rest) :=
    parseMembers_step_comma (fuel + 3) priceKey (intToString it.price) _
      (JSValue.num it.price) _ rest
      (parseValue_intLit (fuel + 2) it.price _ (by simp +decide [headDigit])) h4
  have h2 : parseMembers (fuel + 5)
      (strLit titleKey ++ ':' :: (strLit it.title ++ ',' ::
        (strLit priceKey ++ ':' :: (intToString it.price ++ ',' ::
          (strLit imageKey ++ ':' :: (strLit it.image ++ ',' ::
            (strLit quantityKey ++ ':' :: (intToString it.quantity ++ '}' :: rest))))))))
      = some ([(titleKey, JSValue.str it.title),
          (priceKey, JSValue.num it.price),
          (imageKey, JSValue.str it.image),
          (quantityKey, JSValue.num it.quantity)], rest) :=
    parseMembers_step_comma (fuel + 4) titleKey (strLit it.title) _
      (JSValue.str it.title) _ rest (parseValue_strLit (fuel + 3) it.title _) h3
  have h1 : parseMembers (fuel + 6)
      (strLit idKey ++ ':' :: (strLit it.id ++ ',' ::
        (strLit titleKey ++ ':' :: (strLit it.title ++ ',' ::
          (strLit priceKey ++ ':' :: (intToString it.price ++ ',' ::
            (strLit imageKey ++ ':' :: (strLit it.image ++ ',' ::
              (strLit quantityKey ++ ':' ::
                (intToString it.quantity ++ '}' :: rest))))))))))
      = some ([(idKey, JSValue.str it.id),
          (titleKey, JSValue.str it.title),
          (priceKey, JSValue.num it.price),
          (imageKey, JSValue.str it.image),
          (quantityKey, JSValue.num it.quantity)], rest) :=
    parseMembers_step_comma (fuel + 5) idKey (strLit it.id) _
      (JSValue.str it.id) _ rest (parseValue_strLit (fuel + 4) it.id _) h2
  rw [stringifyItem]
  simp only [List.cons_append, List.append_assoc, List.singleton_append, List.nil_append]
  rw [show fuel + 7 = fuel + 6 + 1 from rfl,
    parseValue_objStrKey (fuel + 6) idKey, h1]
  rfl

theorem stringifyItem_length (it : CartItem) : 9 ≤ (stringifyItem it).length := by
  simp [stringifyItem, strLit, List.length_append]
  omega

theorem joinComma_length (its : List CartItem) (h : its ≠ []) :
    8 * its.length + 1 ≤ (joinComma (its.map stringifyItem)).length := by
  induction its with
  | nil => simp at h
  | cons x its ih =>
    cases its with
    | nil =>
      have := stringifyItem_length x
      simpa [joinComma] using by omega
    | cons y t =>
      have hx := stringifyItem_length x
      have ht := ih (by simp)
      simp only [List.map_cons, joinComma, List.length_append, List.length_cons] at *
      omega

theorem parseElems_cart (its : List CartItem) (fuel : Nat) (rest : JSStr) (h : its ≠ []) :
    parseElems (fuel + 8 * its.length) (joinComma (its.map stringifyItem) ++ ']' :: rest)
      = some (its.map itemToJSON, rest) := by
  induction its generalizing fuel with
  | nil => simp at h
  | cons x its ih =>
    cases its with
    | nil =>
      rw [show fuel + 8 * ([x] : Cart).length = (fuel + 7) + 1 from by simp]
      rw [parseElems.eq_def]
      simp only [List.map_cons, List.map_nil, joinComma]
      simp +decide [skipWs, parseValue_item x fuel (']' :: rest)]
    | cons y t =>
      rw [show fuel + 8 * (x :: y :: t : Cart).length
          = (fuel + 8 * (t.length + 1) + 7) + 1 from by
        simp only [List.length_cons]; omega]
      rw [parseElems.eq_def]
      have hx := parseValue_item x (fuel + 8 * (t.length + 1))
        (',' :: (joinComma (stringifyItem y :: t.map stringifyItem) ++ ']' :: rest))
      have hih := ih (fuel + 7) (by simp)
      rw [show fuel + 7 + 8 * (y :: t : Cart).length
          = fuel + 8 * (t.length + 1) + 7 from by
        simp only [List.length_cons]; omega] at hih
      simp only [List.map_cons] at hih
      simp only [List.map_cons, joinComma, List.append_assoc, List.cons_append]
      simp +decide [skipWs, hx, hih]

theorem stringifyItem_eq_brace (it : CartItem) :
    stringifyItem it = '{' :: (strLit idKey ++ ':' :: strLit it.id ++ ',' ::
      strLit titleKey ++ ':' :: strLit it.title ++ ',' ::
      strLit priceKey ++ ':' :: intToString it.price ++ ',' ::
      strLit imageKey ++ ':' :: strLit it.image ++ ',' ::
      strLit quantityKey ++ ':' :: intToString it.quantity ++ ['}']) := rfl

theorem parseValue_arrItems (fuel : Nat) (it : CartItem) (its : List CartItem)
    (rest : JSStr) :
    parseValue (fuel + 1) ('[' :: (joinComma ((it :: its).map stringifyItem) ++ ']' :: rest))
      = (fun p => (JSValue.arr p.1, p.2)) <$>
        parseElems fuel (joinComma ((it :: its).map stringifyItem) ++ ']' :: rest) := by
  obtain ⟨u, hu⟩ : ∃ u, joinComma ((it :: its).map stringifyItem) ++ ']' :: rest
      = '{' :: u := by
    cases its with
    | nil =>
      simp only [List.map_cons, List.map_nil, joinComma, stringifyItem_eq_brace,
        List.cons_append]
      exact ⟨_, rfl⟩
    | cons y t =>
      simp only [List.map_cons, joinComma, stringifyItem_eq_brace, List.cons_append,
        List.append_assoc]
      exact ⟨_, rfl⟩
  rw [hu, parseValue.eq_def]
  simp +decide [skipWs]

theorem jsonParse_stringifyCart (cart : Cart) :
    jsonParse (stringifyCart cart) = some (cartToJSON cart) := by
  cases cart with
  | nil => rfl
  | cons x its =>
    have hjc := joinComma_length (x :: its) (by simp)
    have hL : (stringifyCart (x :: its)).length
        = (joinComma ((x :: its).map stringifyItem)).length + 2 := by
      simp [stringifyCart]
    obtain ⟨f, hf⟩ : ∃ f, (stringifyCart (x :: its)).length + 1
        = (f + 8 * (x :: its).length) + 1 :=
      ⟨(stringifyCart (x :: its)).length - 8 * (x :: its).length, by omega⟩
    rw [jsonParse.eq_def, hf, stringifyCart]
    simp only [List.cons_append, List.append_assoc]
    rw [parseValue_arrItems (f + 8 * (x :: its).length) x its []]
    rw [parseElems_cart (x :: its) f [] (by simp)]
    simp +decide [skipWs, cartToJSON]

theorem decodeItem_itemToJSON (it : CartItem) : decodeItem (itemToJSON it) = some it := rfl

theorem decodeCart_cartToJSON (cart : Cart) : decodeCart (cartToJSON cart) = some cart := by
  induction cart with
  | nil => rfl
  | cons x its ih =>
    have ih' : (its.map itemToJSON).mapM decodeItem = some its := ih
    show (itemToJSON x :: its.map itemToJSON).mapM decodeItem = some (x :: its)
    rw [List.mapM_cons, decodeItem_itemToJSON, ih']
    rfl

theorem jsStartsWith_append_cancel (p a b : JSStr) :
    jsStartsWith (p ++ a) (p ++ b) = jsStartsWith a b := by
  simp only [jsStartsWith]
  induction p with
  | nil => rfl
  | cons c p ih => simpa [List.isPrefixOf] using ih

theorem eq_append_drop_of_jsStartsWith (s p : JSStr) (h : jsStartsWith s p = true) :
    s = p ++ s.drop p.length := by
  simp only [jsStartsWith, List.isPrefixOf_iff_prefix] at h
  obtain ⟨t, rfl⟩ := h
  simp

theorem jsStartsWith_of_append (s p q : JSStr) (h : jsStartsWith s (p ++ q) = true) :
    jsStartsWith s p = true := by
  simp only [jsStartsWith, List.isPrefixOf_iff_prefix] at h ⊢
  exact (List.prefix_append p q).trans h

theorem jsStartsWith_append_self (p t : JSStr) : jsStartsWith (p ++ t) p = true := by
  simp [jsStartsWith, List.isPrefixOf_iff_prefix]

/-- The stored image begins with `"../"` exactly when the incoming path
began with two stacked `"../"` segments: `normalizePathForStorage` strips
only the first one. -/
theorem normalizePathForStorage_parent_iff (path : JSStr) :
    jsStartsWith (normalizePathForStorage path) parentSeg
      = jsStartsWith path (parentSeg ++ parentSeg) := by
  unfold normalizePathForStorage
  by_cases h : jsStartsWith path parentSeg
  · obtain ⟨t, rfl⟩ : ∃ t, path = parentSeg ++ t :=
      ⟨path.drop parentSeg.length, eq_append_drop_of_jsStartsWith path parentSeg h⟩
    simp only [h, if_true, List.drop_left]
    exact (jsStartsWith_append_cancel parentSeg t parentSeg).symm
  · have h' := h
    rw [Bool.not_eq_true] at h'
    rw [if_neg (by simp [h'])]
    cases h2 : jsStartsWith path (parentSeg ++ parentSeg) with
    | false => rw [h']
    | true => exact absurd (jsStartsWith_of_append path parentSeg parentSeg h2) h

theorem find?_append_first (pre post : Cart) (it : CartItem) (pid : JSStr)
    (hpre : ∀ y ∈ pre, (y.id == pid) = false) (hit : (it.id == pid) = true) :
    (pre ++ it :: post).find? (fun x => x.id == pid) = some it := by
  induction pre with
  | nil => simp [List.find?_cons, hit]
  | cons y pre ih =>
    have hy : (y.id == pid) = false := hpre y (by simp)
    rw [List.cons_append, List.find?_cons]
    simp only [hy]
    exact ih fun z hz => hpre z (by simp [hz])

theorem bumpFirstQuantity_append (pre post : Cart) (it : CartItem) (pid : JSStr)
    (hpre : ∀ y ∈ pre, (y.id == pid) = false) (hit : (it.id == pid) = true) :
    bumpFirstQuantity (pre ++ it :: post) pid
      = pre ++ { it with quantity := it.quantity + 1 } :: post := by
  induction pre with
  | nil => simp [bumpFirstQuantity, hit]
  | cons y pre ih =>
    simp only [List.cons_append, bumpFirstQuantity, hpre y (by simp), Bool.false_eq_true,
      if_false, List.cons.injEq, true_and]
    exact ih fun z hz => hpre z (by simp [hz])

theorem setFirstQuantity_append (pre post : Cart) (it : CartItem) (pid : JSStr) (delta : Int)
    (hpre : ∀ y ∈ pre, (y.id == pid) = false) (hit : (it.id == pid) = true) :
    setFirstQuantity (pre ++ it :: post) pid delta
      = pre ++ { it with
          quantity := if it.quantity + delta < 1 then 1 else it.quantity + delta } :: post := by
  induction pre with
  | nil => simp [setFirstQuantity, hit]
  | cons y pre ih =>
    simp only [List.cons_append, setFirstQuantity, hpre y (by simp), Bool.false_eq_true,
      if_false, List.cons.injEq, true_and]
    exact ih fun z hz => hpre z (by simp [hz])

theorem addToCart_present (pre post : Cart) (it : CartItem) (p : Product)
    (hpre : ∀ y ∈ pre, (y.id == p.id) = false) (hit : (it.id == p.id) = true) :
    addToCart (pre ++ it :: post) p
      = pre ++ { it with quantity := it.quantity + 1 } :: post := by
  unfold addToCart
  rw [find?_append_first pre post it p.id hpre hit]
  exact bumpFirstQuantity_append pre post it p.id hpre hit

theorem addToCart_not_present (cart : Cart) (p : Product)
    (h : ∀ y ∈ cart, (y.id == p.id) = false) :
    addToCart cart p
      = cart ++ [⟨p.id, p.title, p.price, normalizePathForStorage p.image, 1⟩] := by
  unfold addToCart
  rw [List.find?_eq_none.mpr (by simpa using h)]

theorem foldl_addToCart_same_id (ps : List Product) (pre : Cart) (it : CartItem)
    (hpre : ∀ y ∈ pre, (y.id == it.id) = false)
    (hps : ∀ q ∈ ps, q.id = it.id) :
    List.foldl addToCart (pre ++ [it]) ps
      = pre ++ [{ it with quantity := it.quantity + ps.length }] := by
  induction ps generalizing it with
  | nil => simp
  | cons q ps ih =>
    have hq : q.id = it.id := hps q (by simp)
    have step : addToCart (pre ++ [it]) q = pre ++ [{ it with quantity := it.quantity + 1 }] := by
      have := addToCart_present pre [] it q (by simpa [hq] using hpre) (by simp [hq])
      simpa using this
    rw [List.foldl_cons, step]
    have tail := ih { it with quantity := it.quantity + 1 }
      (by simpa using hpre) (fun r hr => hps r (by simp [hr]))
    rw [tail]
    simp only [List.append_cancel_left_eq, List.cons.injEq, and_true, CartItem.mk.injEq,
      true_and, List.length_cons]
    push_cast
    ring

/-! ## Claim theorems -/

/-- Claim C1: `addToCart` with an id already in the cart increments that
item's quantity by exactly 1 and leaves its stored title, price and image
untouched; with a fresh id it appends a new item with quantity 1 whose
image went through `normalizePathForStorage`; and a run of n calls with
the same id starting from a cart without it yields quantity n with the
title, price and image of the first call. -/
theorem addToCart_increment_append_sequence :
    (∀ (pre post : Cart) (it : CartItem) (p : Product),
      (∀ y ∈ pre, (y.id == p.id) = false) → (it.id == p.id) = true →
      addToCart (pre ++ it :: post) p
        = pre ++ { it with quantity := it.quantity + 1 } :: post)
    ∧ (∀ (cart : Cart) (p : Product),
      (∀ y ∈ cart, (y.id == p.id) = false) →
      addToCart cart p
        = cart ++ [⟨p.id, p.title, p.price, normalizePathForStorage p.image, 1⟩])
    ∧ (∀ (cart : Cart) (p : Product) (ps : List Product),
      (∀ y ∈ cart, (y.id == p.id) = false) →
      (∀ q ∈ ps, q.id = p.id) →
      List.foldl addToCart cart (p :: ps)
        = cart ++ [⟨p.id, p.title, p.price, normalizePathForStorage p.image,
            (ps.length : Int) + 1⟩]) := by
  refine ⟨addToCart_present, addToCart_not_present, ?_⟩
  intro cart p ps hcart hps
  rw [List.foldl_cons, addToCart_not_present cart p hcart]
  have := foldl_addToCart_same_id ps cart
    ⟨p.id, p.title, p.price, normalizePathForStorage p.image, 1⟩ hcart hps
  rw [this]
  simp only [List.append_cancel_left_eq, List.cons.injEq, and_true, CartItem.mk.injEq,
    true_and]
  ring

/-- Witness for claim C1 at concrete inputs: a second add of id `a`
reaches quantity 3 keeping the first title/price/image, and three adds of
id `a` from an empty cart give quantity 3 with the first descriptor's
fields. -/
theorem addToCart_increment_append_sequence_witness :
    addToCart [⟨"a".data, "t".data, 5, "i".data, 2⟩] ⟨"a".data, "u".data, 7, "j".data⟩
      = [⟨"a".data, "t".data, 5, "i".data, 3⟩]
    ∧ List.foldl addToCart []
        [⟨"a".data, "t".data, 5, "i".data⟩, ⟨"a".data, "u".data, 7, "j".data⟩,
          ⟨"a".data, "v".data, 9, "k".data⟩]
      = [⟨"a".data, "t".data, 5, "i".data, 3⟩] := by
  constructor
  · exact (addToCart_increment_append_sequence.1 [] []
      ⟨"a".data, "t".data, 5, "i".data, 2⟩ ⟨"a".data, "u".data, 7, "j".data⟩
      (by simp) (by decide)).trans (by decide)
  · exact (addToCart_increment_append_sequence.2.2 [] ⟨"a".data, "t".data, 5, "i".data⟩
      [⟨"a".data, "u".data, 7, "j".data⟩, ⟨"a".data, "v".data, 9, "k".data⟩]
      (by simp) (by decide)).trans (by decide)

/-- Claim C2: for an item present in the cart, `updateQuantity` sets its
quantity to `max 1 (quantity + delta)`; decrementing by any `N ≥ quantity`
clamps the quantity to exactly 1 and the item stays in place. -/
theorem updateQuantity_clamps (pre post : Cart) (it : CartItem) (pid : JSStr)
    (hpre : ∀ y ∈ pre, (y.id == pid) = false) (hit : (it.id == pid) = true) :
    (∀ delta : Int,
      updateQuantity (pre ++ it :: post) pid delta
        = pre ++ { it with quantity := max 1 (it.quantity + delta) } :: post)
    ∧ (∀ N : Int, it.quantity ≤ N →
      updateQuantity (pre ++ it :: post) pid (-N)
        = pre ++ { it with quantity := 1 } :: post) := by
  have base : ∀ delta : Int,
      updateQuantity (pre ++ it :: post) pid delta
        = pre ++ { it with quantity := max 1 (it.quantity + delta) } :: post := by
    intro delta
    unfold updateQuantity
    rw [find?_append_first pre post it pid hpre hit,
      setFirstQuantity_append pre post it pid delta hpre hit]
    have : (if it.quantity + delta < 1 then 1 else it.quantity + delta)
        = max 1 (it.quantity + delta) := by
      rw [max_def]; split_ifs <;> omega
    rw [this]
  refine ⟨base, fun N hN => ?_⟩
  rw [base (-N)]
  have : max 1 (it.quantity + -N) = 1 := by
    rw [max_def]; split_ifs <;> omega
  rw [this]

/-- Witness for claim C2: decrementing quantity 2 by 100 clamps to 1. -/
theorem updateQuantity_clamps_witness :
    updateQuantity [⟨"a".data, "t".data, 5, "i".data, 2⟩] "a".data (-100)
      = [⟨"a".data, "t".data, 5, "i".data, 1⟩] := by
  exact ((updateQuantity_clamps [] [] ⟨"a".data, "t".data, 5, "i".data, 2⟩ "a".data
    (by simp) (by decide)).2 100 (by decide)).trans (by decide)

/-- Counterexample to claim C4 as stated: adding a product whose image is
`"../../assets/x.jpg"` persists the image `"../assets/x.jpg"`, which still
begins with a parent-directory traversal segment. -/
theorem addToCart_stacked_parent_counterexample :
    addToCart [] ⟨"b1".data, "T".data, 10, "../../assets/x.jpg".data⟩
      = [⟨"b1".data, "T".data, 10, "../assets/x.jpg".data, 1⟩]
    ∧ jsStartsWith "../assets/x.jpg".data parentSeg = true := by decide

/-- Claim C4 as amended: `normalizePathForStorage` strips exactly one
leading `"../"`, so as long as the descriptor's image does not begin with
two stacked `"../"` segments, the image stored by `addToCart` never begins
with one. -/
theorem addToCart_stored_image_no_parent (cart : Cart) (p : Product)
    (hid : ∀ y ∈ cart, (y.id == p.id) = false)
    (himg : jsStartsWith p.image (parentSeg ++ parentSeg) = false) :
    addToCart cart p
      = cart ++ [⟨p.id, p.title, p.price, normalizePathForStorage p.image, 1⟩]
    ∧ jsStartsWith (normalizePathForStorage p.image) parentSeg = false := by
  refine ⟨addToCart_not_present cart p hid, ?_⟩
  rw [normalizePathForStorage_parent_iff]
  exact himg

/-- Witness for the amended claim C4: one leading `"../"` is stripped and
the stored image is traversal-free. -/
theorem addToCart_stored_image_no_parent_witness :
    addToCart [] ⟨"b2".data, "T".data, 10, "../assets/c.jpg".data⟩
      = [] ++ [⟨"b2".data, "T".data, 10,
          normalizePathForStorage "../assets/c.jpg".data, 1⟩]
    ∧ jsStartsWith (normalizePathForStorage "../assets/c.jpg".data) parentSeg = false :=
  addToCart_stored_image_no_parent [] ⟨"b2".data, "T".data, 10, "../assets/c.jpg".data⟩
    (by simp) (by decide)

/-- Counterexample to claim C5 as stated: `"httpfoo.jpg"` begins with no
network-scheme prefix (`"http://"`, `"https://"`) nor `"//"` nor `"../"`
and is nonempty, yet nested resolution returns it unchanged instead of
prefixing `"../"`, because the code tests `startsWith("http")`. -/
theorem resolveImagePath_http_heuristic_counterexample :
    resolveImagePath "httpfoo.jpg".data true = "httpfoo.jpg".data
    ∧ jsStartsWith "httpfoo.jpg".data "http://".data = false
    ∧ jsStartsWith "httpfoo.jpg".data "https://".data = false
    ∧ jsStartsWith "httpfoo.jpg".data slashSlash = false
    ∧ jsStartsWith "httpfoo.jpg".data parentSeg = false
    ∧ "httpfoo.jpg".data ≠ []
    ∧ resolveImagePath "httpfoo.jpg".data true ≠ parentSeg ++ "httpfoo.jpg".data := by
  decide

/-- Claim C5 as amended: for nonempty paths that do not begin with the
literal `"http"`, with `"//"`, or with `"../"`, nested resolution prefixes
exactly one `"../"`. -/
theorem resolveImagePath_nested_prefixes (raw : JSStr) (h0 : raw ≠ [])
    (h1 : jsStartsWith raw httpSeg = false) (h2 : jsStartsWith raw slashSlash = false)
    (h3 : jsStartsWith raw parentSeg = false) :
    resolveImagePath raw true = parentSeg ++ raw := by
  unfold resolveImagePath
  simp [h0, h1, h2, h3]

/-- Witness for the amended claim C5: the spec's own example. -/
theorem resolveImagePath_nested_prefixes_witness :
    resolveImagePath "assets/cover.jpg".data true = "../assets/cover.jpg".data :=
  (resolveImagePath_nested_prefixes "assets/cover.jpg".data (by decide) (by decide)
    (by decide) (by decide)).trans (by decide)

/-- Claim C6: `load` after `save` is the identity on well-formed carts:
`JSON.parse` recovers exactly the JSON value of the saved cart (order and
every field preserved, escaping round-trips), and reading that value back
with the types the program expects yields the original cart. -/
theorem load_after_save_roundtrip (cart : Cart) :
    getCart (saveCart cart) = cartToJSON cart
    ∧ decodeCart (cartToJSON cart) = some cart := by
  refine ⟨?_, decodeCart_cartToJSON cart⟩
  have hne : ¬(stringifyCart cart = []) := by
    rw [stringifyCart]
    exact List.cons_ne_nil _ _
  rw [saveCart, getCart.eq_def]
  simp only [hne, if_false, jsonParse_stringifyCart cart]

/-- Counterexample to claim C3 as stated: the persisted string `"5"` is
valid JSON but does not decode to a cart, yet `getCart` returns the
number 5 as parsed — not an empty cart — because the code validates
nothing beyond `JSON.parse` succeeding. -/
theorem getCart_unvalidated_counterexample :
    getCart (some ['5']) = JSValue.num 5
    ∧ decodeCart (JSValue.num 5) = none
    ∧ JSValue.num 5 ≠ JSValue.arr [] :=
  ⟨rfl, rfl, by simp⟩

/-- Claim C3 as amended: on absent, empty, or unparseable storage content,
`load` returns the empty cart; the `JSON.parse` exception is caught and
replaced by `[]`, and no exception reaches the caller (`getCart` is a
total function in this model).  Parseable JSON of the wrong shape is
returned as parsed, without validation. -/
theorem getCart_parse_failure_recovery (storage : Option JSStr)
    (h : storage = none ∨ storage = some []
      ∨ ∃ raw, storage = some raw ∧ jsonParse raw = none) :
    getCart storage = JSValue.arr [] := by
  rcases h with rfl | rfl | ⟨raw, rfl, hraw⟩
  · rfl
  · rfl
  · by_cases hr : raw = []
    · simp [getCart, hr]
    · simp [getCart, hr, hraw]

/-- Witness for the amended claim C3: a malformed persisted string is
recovered as the empty cart. -/
theorem getCart_parse_failure_recovery_witness :
    getCart (some "not json".data) = JSValue.arr [] :=
  getCart_parse_failure_recovery (some "not json".data)
    (Or.inr (Or.inr ⟨"not json".data, rfl, rfl⟩))

/-- Claim C7: removing or adjusting the quantity of an id that is not in
the cart leaves the cart unchanged (both operations are total silent
no-ops). -/
theorem missing_id_mutations_noop (cart : Cart) (pid : JSStr)
    (h : ∀ y ∈ cart, (y.id == pid) = false) :
    removeFromCart cart pid = cart
    ∧ ∀ delta : Int, updateQuantity cart pid delta = cart := by
  constructor
  · exact List.filter_eq_self.mpr fun y hy => by simp [bne, h y hy]
  · intro delta
    unfold updateQuantity
    rw [List.find?_eq_none.mpr (by simpa using h)]

/-- Witness for claim C7 at a concrete cart and missing id. -/
theorem missing_id_mutations_noop_witness :
    removeFromCart [⟨"a".data, "t".data, 5, "i".data, 2⟩] "zz".data
      = [⟨"a".data, "t".data, 5, "i".data, 2⟩]
    ∧ updateQuantity [⟨"a".data, "t".data, 5, "i".data, 2⟩] "zz".data (-3)
      = [⟨"a".data, "t".data, 5, "i".data, 2⟩] :=
  ⟨(missing_id_mutations_noop [⟨"a".data, "t".data, 5, "i".data, 2⟩] "zz".data
      (by decide)).1,
    (missing_id_mutations_noop [⟨"a".data, "t".data, 5, "i".data, 2⟩] "zz".data
      (by decide)).2 (-3)⟩

/-- Claim C8: the grand total rendered for the cart view is the sum over
items of price times quantity; the spec's sample cart totals 4500 and the
empty cart totals 0. -/
theorem renderCartTotal_is_sum :
    (∀ cart : Cart,
      renderCartTotal cart = (cart.map (fun it => it.price * it.quantity)).sum)
    ∧ renderCartTotal [⟨"a".data, "t1".data, 1000, "i1".data, 2⟩,
        ⟨"b".data, "t2".data, 2500, "i2".data, 1⟩] = 4500
    ∧ renderCartTotal [] = 0 := by
  have general : ∀ cart : Cart,
      renderCartTotal cart = (cart.map (fun it => it.price * it.quantity)).sum := by
    intro cart
    unfold renderCartTotal
    split
    · simp_all
    · rw [List.sum_eq_foldl, List.foldl_map]
  exact ⟨general, by decide, by decide⟩

/-- Claim C9: removing an id and re-adding the same descriptor yields a
fresh item with quantity exactly 1, not the previously accumulated
quantity. -/
theorem remove_then_add_fresh (cart : Cart) (p : Product)
    (_h : ∃ it ∈ cart, (it.id == p.id) = true) :
    addToCart (removeFromCart cart p.id) p
      = removeFromCart cart p.id
        ++ [⟨p.id, p.title, p.price, normalizePathForStorage p.image, 1⟩] := by
  apply addToCart_not_present
  intro y hy
  have := (List.mem_filter.mp hy).2
  simpa [bne] using this

/-- Witness for claim C9: id `a` had quantity 7; after remove and re-add
its quantity is 1. -/
theorem remove_then_add_fresh_witness :
    addToCart (removeFromCart [⟨"a".data, "t".data, 5, "i".data, 7⟩] "a".data)
      ⟨"a".data, "t".data, 5, "i".data⟩
      = removeFromCart [⟨"a".data, "t".data, 5, "i".data, 7⟩] "a".data
        ++ [⟨"a".data, "t".data, 5, normalizePathForStorage "i".data, 1⟩] :=
  remove_then_add_fresh [⟨"a".data, "t".data, 5, "i".data, 7⟩]
    ⟨"a".data, "t".data, 5, "i".data⟩ ⟨⟨"a".data, "t".data, 5, "i".data, 7⟩, by decide⟩

/-- Claim C10: `removeFromCart` removes every entry bearing the given id —
even when the (unvalidated) cart holds duplicates — and keeps all other
entries, order and multiplicity intact. -/
theorem removeFromCart_removes_all_matches (cart : Cart) (pid : JSStr) :
    (removeFromCart cart pid).Sublist cart
    ∧ (∀ y ∈ removeFromCart cart pid, (y.id == pid) = false)
    ∧ (∀ y : CartItem, (y.id == pid) = false →
        (removeFromCart cart pid).count y = cart.count y) := by
  refine ⟨List.filter_sublist cart, ?_, ?_⟩
  · intro y hy
    have := (List.mem_filter.mp hy).2
    simpa [bne] using this
  · intro y hy
    exact List.count_filter (by simp [bne, hy])

/-- Witness for claim C10 on a cart with a duplicated id: both copies go,
the other item survives with its multiplicity. -/
theorem removeFromCart_removes_all_matches_witness :
    (removeFromCart [⟨"a".data, "t".data, 5, "i".data, 1⟩,
        ⟨"b".data, "u".data, 6, "j".data, 2⟩,
        ⟨"a".data, "t".data, 5, "i".data, 3⟩] "a".data).Sublist
      [⟨"a".data, "t".data, 5, "i".data, 1⟩, ⟨"b".data, "u".data, 6, "j".data, 2⟩,
        ⟨"a".data, "t".data, 5, "i".data, 3⟩]
    ∧ (removeFromCart [⟨"a".data, "t".data, 5, "i".data, 1⟩,
        ⟨"b".data, "u".data, 6, "j".data, 2⟩,
        ⟨"a".data, "t".data, 5, "i".data, 3⟩] "a".data).count
        ⟨"b".data, "u".data, 6, "j".data, 2⟩
      = ([⟨"a".data, "t".data, 5, "i".data, 1⟩, ⟨"b".data, "u".data, 6, "j".data, 2⟩,
          ⟨"a".data, "t".data, 5, "i".data, 3⟩] : Cart).count
          ⟨"b".data, "u".data, 6, "j".data, 2⟩ :=
  ⟨(removeFromCart_removes_all_matches [⟨"a".data, "t".data, 5, "i".data, 1⟩,
      ⟨"b".data, "u".data, 6, "j".data, 2⟩, ⟨"a".data, "t".data, 5, "i".data, 3⟩]
      "a".data).1,
    (removeFromCart_removes_all_matches [⟨"a".data, "t".data, 5, "i".data, 1⟩,
      ⟨"b".data, "u".data, 6, "j".data, 2⟩, ⟨"a".data, "t".data, 5, "i".data, 3⟩]
      "a".data).2.2 ⟨"b".data, "u".data, 6, "j".data, 2⟩ (by decide)⟩
